import Mathlib

/-! ## java_compile: a two-stage compiler launcher

Shallow embedding of `src/java_compile.cpp`.

* A C++ `char` is a Lean `Char`; `std::string` and `std::string_view` are Lean
  `String`s, read through their character list `String.data`.  The literals
  of the program are ASCII.
* `argv` is the list of the program's arguments (`argc` is its length).  Its
  entries are NUL-terminated C strings, so none of them contains the NUL
  character; `IsCString` states this where a proof needs it.
* System calls are answered by a `World`, and a run of the program is the list
  of system calls it made together with the way the process ended.
-/

namespace JavaCompile

/-! ## Strings -/

/-- Sign of `std::char_traits<char>::compare` followed by the length
tie-break of `std::string_view::compare`: negative, zero or positive. -/
def compareChars : List Char → List Char → Int
  | [], [] => 0
  | [], _ :: _ => -1
  | _ :: _, [] => 1
  | a :: as, b :: bs =>
    if a.toNat < b.toNat then -1
    else if b.toNat < a.toNat then 1
    else compareChars as bs

/-- Models `filename.compare(pos, std::string::npos, extension)`: the
substring of `filename` from `pos` to its end is compared with `extension`. -/
def compareFrom (filename : String) (pos : Nat) (extension : String) : Int :=
  compareChars (filename.data.drop pos) extension.data

/-- Models `std::string_view::remove_suffix(n)`. -/
def remove_suffix (s : String) (n : Nat) : String :=
  ⟨s.data.take (s.length - n)⟩

/-- Source lines 14-22. -/
def TrimExtension (filename extension : String) : String :=
  if filename.length ≥ extension.length ∧
      compareFrom filename (filename.length - extension.length) extension = 0 then
    remove_suffix filename extension.length
  else
    filename

/-- The descending scan of `std::string_view::rfind`: the candidate start
`pos` is tried first, then every smaller one down to `0`. -/
def rfindFrom (s pat : List Char) : Nat → Option Nat
  | 0 => if s.take pat.length = pat then some 0 else none
  | pos + 1 =>
    if (s.drop (pos + 1)).take pat.length = pat then some (pos + 1)
    else rfindFrom s pat pos

/-- Models `std::string_view::rfind(pat)` with its default start `npos`: the
start of the last occurrence of `pat` in `s`, or `none` for `npos`. -/
def rfind (s pat : String) : Option Nat :=
  if pat.length ≤ s.length then rfindFrom s.data pat.data (s.length - pat.length)
  else none

/-- The NUL-terminated prefix that a `const char*` obtained from
`std::string::data()` denotes. -/
def c_str (s : String) : String :=
  ⟨s.data.takeWhile (fun c => c ≠ Char.ofNat 0)⟩

/-- A string that holds no NUL character, as every entry of `argv` does. -/
def IsCString (s : String) : Prop :=
  Char.ofNat 0 ∉ s.data

instance (s : String) : Decidable (IsCString s) := by
  unfold IsCString; infer_instance

/-- Modelled from the spec: `StringPrintf` of `util.h` is not part of the
sources; the spec calls it a string-formatting utility that, for the format
`"%sKt"`, appends the fixed suffix `Kt` to the C string it is given. -/
def StringPrintf_sKt (arg : String) : String :=
  arg ++ "Kt"

/-! ## Wait statuses (`<sys/wait.h>`, Linux encoding)

A wait status is the bit pattern that `waitpid` stores in `wstatus`; `x & m`
for a mask `m = 2^k - 1` is written `x % 2^k`, and `x >> 8` is `x / 256`. -/

/-- `WTERMSIG(s)`, that is `s & 0x7f`. -/
def WTERMSIG (wstatus : Nat) : Nat :=
  wstatus % 128

/-- `WEXITSTATUS(s)`, that is `(s & 0xff00) >> 8`. -/
def WEXITSTATUS (wstatus : Nat) : Nat :=
  (wstatus / 256) % 256

/-- `WIFEXITED(s)`, that is `WTERMSIG(s) == 0`. -/
def WIFEXITED (wstatus : Nat) : Bool :=
  WTERMSIG wstatus == 0

/-- `WIFSIGNALED(s)`, that is `((signed char) ((s & 0x7f) + 1) >> 1) > 0`. -/
def WIFSIGNALED (wstatus : Nat) : Bool :=
  let v : Int := ((wstatus % 128 + 1 : Nat) : Int)
  let sc : Int := if v ≥ 128 then v - 256 else v
  decide (sc / 2 > 0)

/-- `W_EXITCODE(ret, sig)`, that is `ret << 8 | sig`: the status the kernel
reports for a child that exited with code `ret` (`sig = 0`) or was killed by
signal `sig` (`ret = 0`). -/
def W_EXITCODE (ret sig : Nat) : Nat :=
  ret * 256 + sig

/-- `W_STOPCODE(sig)`, that is `sig << 8 | 0x7f`: the child was stopped. -/
def W_STOPCODE (sig : Nat) : Nat :=
  sig * 256 + 127

/-- The status `0xffff` of a child resumed by `SIGCONT`. -/
def W_CONTINUED : Nat :=
  65535

/-- The core-dump flag `0x80` of a signal-terminated status. -/
def WCOREFLAG : Nat :=
  128

/-! ## Processes -/

/-- Which process makes a call: the launcher or its `vfork` child. -/
inductive Proc
  | parent
  | child
  deriving DecidableEq, Repr

/-- The places where the program calls `PLOG(FATAL)`. -/
inductive Fatal
  /-- Line 71, with `argv[0]` when there is one. -/
  | usage (argv0 : Option String)
  /-- Line 31, `Failed to execve` with the joined command. -/
  | execve (args : List String)
  /-- Line 38, `Could not fork child`. -/
  | fork
  /-- Line 49, `Failed to wait for child`. -/
  | wait
  deriving DecidableEq, Repr

/-- The observable steps of a run: system calls, and aborts through
`PLOG(FATAL)`. -/
inductive Event
  | vfork
  | execve (p : Proc) (args : List String)
  | waitpid
  | abort (p : Proc) (f : Fatal)
  deriving DecidableEq, Repr

/-- The answers of the operating system.
`waits` lists what the successive calls of `waitpid` yield, `none` for the
error return `-1` and `some wstatus` otherwise; when the list is used up the
next `waitpid` never returns. -/
structure World where
  /-- Does `vfork` create the child (it returns `-1` otherwise)? -/
  vforkOk : Bool
  /-- Does `execve` of this command succeed? -/
  execveOk : List String → Bool
  waits : List (Option Nat)

/-- How a piece of code that may return an `int` ends. -/
inductive Result
  /-- It returned this value. -/
  | ret (status : Int)
  /-- `PLOG(FATAL)` aborted the process. -/
  | fatal (f : Fatal)
  /-- `execve` replaced the process image by this command. -/
  | replaced (args : List String)
  /-- Blocked for ever in `waitpid`. -/
  | blocked
  deriving DecidableEq, Repr

/-- Modelled from the spec: `PLOG(FATAL)` of `logging.h` is not part of the
sources; the spec describes it as a logging sink that aborts the process on
fatal conditions.  The abort is recorded and ends the run of process `p`. -/
def PLOG_FATAL (p : Proc) (f : Fatal) : List Event × Result :=
  ([Event.abort p f], Result.fatal f)

/-- Source lines 24-33, run by process `p`.  `execve` does not return when it
succeeds; when it fails the `PLOG(FATAL)` of line 31 aborts. -/
def Exec (w : World) (p : Proc) (args : List String) : List Event × Result :=
  if w.execveOk args then
    ([Event.execve p args], Result.replaced args)
  else
    let r := PLOG_FATAL p (Fatal.execve args)
    (Event.execve p args :: r.1, r.2)

/-- The parent's loop of source lines 47-55 over the remaining answers of
`waitpid`. -/
def waitLoop : List (Option Nat) → List Event × Result
  | [] => ([Event.waitpid], Result.blocked)
  | none :: _ =>
    let r := PLOG_FATAL Proc.parent Fatal.wait
    (Event.waitpid :: r.1, r.2)
  | some wstatus :: rest =>
    if WIFEXITED wstatus then
      ([Event.waitpid], Result.ret (WEXITSTATUS wstatus))
    else if WIFSIGNALED wstatus then
      ([Event.waitpid], Result.ret (WTERMSIG wstatus))
    else
      let r := waitLoop rest
      (Event.waitpid :: r.1, r.2)

/-- Source lines 35-56, as seen from the parent.  The events of the child
(line 42) come first, because `vfork` suspends the parent until the child has
called `execve` or has ended. -/
def ForkExec (w : World) (args : List String) : List Event × Result :=
  if w.vforkOk then
    let c := Exec w Proc.child args
    let r := waitLoop w.waits
    (Event.vfork :: c.1 ++ r.1, r.2)
  else
    let r := PLOG_FATAL Proc.parent Fatal.fork
    (Event.vfork :: r.1, r.2)

/-! ## The entry point -/

/-- The test of source line 62 on `argv[1]`. -/
def isLanguageFlag (arg : String) : Bool :=
  rfind arg "--language=" == some 0

/-- Source lines 61-69: the value of `kotlin` and the shifted `argv`. -/
def parseLanguage (argv : List String) : Bool × List String :=
  match argv with
  | argv0 :: argv1 :: rest =>
    if isLanguageFlag argv1 then
      (decide (argv1 = "--language=kotlin"), argv0 :: rest)
    else
      (false, argv)
  | _ => (false, argv)

/-- The two commands of `main`. -/
structure Commands where
  compiler_args : List String
  native_image_args : List String
  deriving DecidableEq, Repr

/-- Source lines 108-116: the loop over `argv[2..argc)`. -/
def addSources (kotlin : Bool) : List String → Commands → Commands
  | [], c => c
  | arg :: rest, c =>
    let compiler_args := c.compiler_args ++ [arg]
    let native_image_args :=
      if kotlin then
        c.native_image_args ++ [StringPrintf_sKt (c_str (TrimExtension arg ".kt"))]
      else
        c.native_image_args ++ [c_str (TrimExtension arg ".java")]
    addSources kotlin rest ⟨compiler_args, native_image_args⟩

/-- Source lines 74-117, for an `argv` with `argc ≥ 3`; line 117 appends
`argv[1]`. -/
def buildCommands (kotlin : Bool) (argv : List String) : Commands :=
  let native_image_args₀ : List String :=
    ["/usr/lib/jvm/graalvm/bin/native-image", "-dsa", "-H:NumberOfThreads=1",
     "-J-Xms512M", "-J-Xmx896M"]
  let c₁ : Commands :=
    if kotlin then
      ⟨["/usr/bin/java", "-Xmx896M", "-Xms32M", "-XX:+UseSerialGC", "-cp",
        "/usr/lib/jvm/kotlinc/lib/kotlin-preloader.jar",
        "org.jetbrains.kotlin.preloading.Preloader", "-cp",
        "/usr/lib/jvm/kotlinc/lib/kotlin-compiler.jar",
        "org.jetbrains.kotlin.cli.jvm.K2JVMCompiler"],
       native_image_args₀ ++ ["-cp", "/usr/lib/jvm/kotlinc/lib/kotlin-stdlib.jar:."]⟩
    else
      ⟨["/usr/bin/javac", "-J-Xmx896M", "-J-Xms32M", "-J-XX:+UseSerialGC"],
       native_image_args₀⟩
  let c₂ : Commands := ⟨c₁.compiler_args ++ ["-d", "."], c₁.native_image_args⟩
  let c₃ := addSources kotlin (argv.drop 2) c₂
  ⟨c₃.compiler_args, c₃.native_image_args ++ argv[1]?.toList⟩

/-- Source lines 60-117: `none` when line 70 takes the usage branch, and
otherwise the two commands that lines 74-117 build. -/
def synthesize (argv : List String) : Option Commands :=
  let p := parseLanguage argv
  if p.2.length < 3 then none else some (buildCommands p.1 p.2)

/-- Source lines 119-123: run the front end, then hand over to
`native-image`. -/
def runStages (w : World) (c : Commands) : List Event × Result :=
  let f := ForkExec w c.compiler_args
  match f.2 with
  | Result.ret status =>
    if status ≠ 0 then
      (f.1, Result.ret status)
    else
      let e := Exec w Proc.parent c.native_image_args
      (f.1 ++ e.1, e.2)
  | r => (f.1, r)

/-- Source lines 60-123: the events of a run of `main` and its end. -/
def main (w : World) (argv : List String) : List Event × Result :=
  match synthesize argv with
  | none => PLOG_FATAL Proc.parent (Fatal.usage (parseLanguage argv).2.head?)
  | some c => runStages w c

/-- The positional arguments of the command line: what follows `argv[0]`,
without the leading language flag when line 62 finds one. -/
def positionals (argv : List String) : List String :=
  match argv.drop 1 with
  | [] => []
  | arg :: rest => if isLanguageFlag arg then rest else arg :: rest

/-- The positional arguments as the command line
`[--language=<name>] <target> <source> [<source> ...]` of the spec reads them:
what follows `argv[0]`, without `argv[1]` when it begins with `--language=`. -/
def positionalsSpec (argv : List String) : List String :=
  match argv.drop 1 with
  | [] => []
  | arg :: rest => if "--language=".data <+: arg.data then rest else arg :: rest

/-- Source lines 25-29: the vector that `Exec` hands to `execve`, a pointer to
each argument followed by the null pointer (`none`); line 30 reads its entry
`0`. -/
def execArgv (args : List String) : List (Option String) :=
  args.map some ++ [none]

/-- The symbol that the loop of lines 108-116 appends for one source. -/
def symbolOf (kotlin : Bool) (arg : String) : String :=
  if kotlin then StringPrintf_sKt (c_str (TrimExtension arg ".kt"))
  else c_str (TrimExtension arg ".java")

/-! ## Lemmas on strings -/

theorem compareChars_eq_zero (a b : List Char) : compareChars a b = 0 ↔ a = b := by
  induction a generalizing b with
  | nil => cases b <;> simp [compareChars]
  | cons x xs ih =>
    cases b with
    | nil => simp [compareChars]
    | cons y ys =>
      simp only [compareChars, List.cons.injEq]
      by_cases h1 : x.toNat < y.toNat
      · have hne : x ≠ y := by rintro rfl; exact Nat.lt_irrefl _ h1
        simp [h1, hne]
      · by_cases h2 : y.toNat < x.toNat
        · have hne : x ≠ y := by rintro rfl; exact Nat.lt_irrefl _ h2
          simp [h1, h2, hne]
        · have hxy : x = y := by
            apply Char.ext
            apply UInt32.ext
            exact Nat.le_antisymm (Nat.not_lt.mp h2) (Nat.not_lt.mp h1)
          simp [h1, h2, hxy, ih]

/-- The guard of `TrimExtension` holds exactly when `extension` is a suffix of
`filename`. -/
theorem trim_guard_iff (filename extension : String) :
    (filename.length ≥ extension.length ∧
      compareFrom filename (filename.length - extension.length) extension = 0) ↔
    extension.data <:+ filename.data := by
  unfold compareFrom
  rw [compareChars_eq_zero]
  constructor
  · rintro ⟨_, h⟩
    rw [← h]
    exact List.drop_suffix _ _
  · intro h
    refine ⟨h.length_le, ?_⟩
    exact (List.suffix_iff_eq_drop.mp h).symm

theorem trim_of_suffix (filename extension : String)
    (h : extension.data <:+ filename.data) :
    TrimExtension filename extension =
      ⟨filename.data.take (filename.data.length - extension.data.length)⟩ := by
  unfold TrimExtension
  rw [if_pos ((trim_guard_iff filename extension).mpr h)]
  rfl

theorem trim_of_not_suffix (filename extension : String)
    (h : ¬ extension.data <:+ filename.data) :
    TrimExtension filename extension = filename := by
  unfold TrimExtension
  rw [if_neg (fun hg => h ((trim_guard_iff filename extension).mp hg))]

theorem trim_append (name extension : String) :
    TrimExtension (name ++ extension) extension = name := by
  have hs : extension.data <:+ (name ++ extension).data := by
    rw [String.data_append]
    exact List.suffix_append _ _
  rw [trim_of_suffix _ _ hs]
  apply String.ext
  simp [String.data_append]

theorem trim_empty (name : String) : TrimExtension name "" = name := by
  have h := trim_append name ""
  rwa [String.append_empty] at h

theorem c_str_of_isCString (s : String) (h : IsCString s) : c_str s = s := by
  unfold c_str
  apply String.ext
  simp only
  rw [List.takeWhile_eq_self_iff]
  intro x hx
  simp only [ne_eq, decide_eq_true_eq]
  rintro rfl
  exact h hx

theorem isCString_trim (filename extension : String) (h : IsCString filename) :
    IsCString (TrimExtension filename extension) := by
  unfold TrimExtension remove_suffix IsCString
  split
  · intro hm
    exact h (List.mem_of_mem_take hm)
  · exact h

theorem rfindFrom_zero_prefix (s pat : List Char) (pos : Nat)
    (h : rfindFrom s pat pos = some 0) : pat <+: s := by
  induction pos with
  | zero =>
    unfold rfindFrom at h
    split at h
    · rename_i hp
      rw [← hp]
      exact List.take_prefix _ _
    · cases h
  | succ n ih =>
    unfold rfindFrom at h
    split at h
    · cases h
    · exact ih h

/-- An argument that line 62 takes for the language flag begins with
`--language=`. -/
theorem isLanguageFlag_prefix (arg : String) (h : isLanguageFlag arg = true) :
    "--language=".data <+: arg.data := by
  unfold isLanguageFlag rfind at h
  split at h
  · exact rfindFrom_zero_prefix _ _ _ (by simpa using h)
  · simp at h

/-! ## Lemmas on the synthesis of the two commands -/

theorem addSources_eq (kotlin : Bool) (sources : List String) (c : Commands) :
    addSources kotlin sources c =
      ⟨c.compiler_args ++ sources,
       c.native_image_args ++ sources.map (symbolOf kotlin)⟩ := by
  induction sources generalizing c with
  | nil => simp [addSources]
  | cons a rest ih =>
    rw [addSources, ih]
    cases kotlin <;> simp [symbolOf]

theorem symbolOf_kotlin (arg : String) (h : IsCString arg) :
    symbolOf true arg = TrimExtension arg ".kt" ++ "Kt" := by
  simp only [symbolOf, if_true, StringPrintf_sKt]
  rw [c_str_of_isCString _ (isCString_trim _ _ h)]

theorem map_symbolOf_kotlin (sources : List String) (h : ∀ s ∈ sources, IsCString s) :
    sources.map (symbolOf true) = sources.map (fun s => TrimExtension s ".kt" ++ "Kt") :=
  List.map_congr_left (fun s hs => symbolOf_kotlin s (h s hs))

theorem parseLanguage_no_flag (argv0 target : String) (rest : List String)
    (h : isLanguageFlag target = false) :
    parseLanguage (argv0 :: target :: rest) = (false, argv0 :: target :: rest) := by
  simp [parseLanguage, h]

theorem parseLanguage_kotlin (argv0 : String) (rest : List String) :
    parseLanguage (argv0 :: "--language=kotlin" :: rest) = (true, argv0 :: rest) := by
  have h : isLanguageFlag "--language=kotlin" = true := by decide
  simp [parseLanguage, h]

theorem synthesize_java (argv0 target source : String) (sources : List String)
    (h : isLanguageFlag target = false) :
    synthesize (argv0 :: target :: source :: sources) =
      some ⟨["/usr/bin/javac", "-J-Xmx896M", "-J-Xms32M", "-J-XX:+UseSerialGC", "-d", "."]
              ++ (source :: sources),
            ["/usr/lib/jvm/graalvm/bin/native-image", "-dsa", "-H:NumberOfThreads=1",
              "-J-Xms512M", "-J-Xmx896M"]
              ++ (source :: sources).map (symbolOf false) ++ [target]⟩ := by
  simp [synthesize, parseLanguage_no_flag _ _ _ h, buildCommands, addSources_eq]

theorem synthesize_kotlin (argv0 target source : String) (sources : List String) :
    synthesize (argv0 :: "--language=kotlin" :: target :: source :: sources) =
      some ⟨["/usr/bin/java", "-Xmx896M", "-Xms32M", "-XX:+UseSerialGC", "-cp",
              "/usr/lib/jvm/kotlinc/lib/kotlin-preloader.jar",
              "org.jetbrains.kotlin.preloading.Preloader", "-cp",
              "/usr/lib/jvm/kotlinc/lib/kotlin-compiler.jar",
              "org.jetbrains.kotlin.cli.jvm.K2JVMCompiler", "-d", "."]
              ++ (source :: sources),
            ["/usr/lib/jvm/graalvm/bin/native-image", "-dsa", "-H:NumberOfThreads=1",
              "-J-Xms512M", "-J-Xmx896M", "-cp",
              "/usr/lib/jvm/kotlinc/lib/kotlin-stdlib.jar:."]
              ++ (source :: sources).map (symbolOf true) ++ [target]⟩ := by
  simp [synthesize, parseLanguage_kotlin, buildCommands, addSources_eq]

theorem buildCommands_compiler_args (kotlin : Bool) (argv : List String) :
    (buildCommands kotlin argv).compiler_args =
      (if kotlin then
        ["/usr/bin/java", "-Xmx896M", "-Xms32M", "-XX:+UseSerialGC", "-cp",
          "/usr/lib/jvm/kotlinc/lib/kotlin-preloader.jar",
          "org.jetbrains.kotlin.preloading.Preloader", "-cp",
          "/usr/lib/jvm/kotlinc/lib/kotlin-compiler.jar",
          "org.jetbrains.kotlin.cli.jvm.K2JVMCompiler", "-d", "."]
      else
        ["/usr/bin/javac", "-J-Xmx896M", "-J-Xms32M", "-J-XX:+UseSerialGC", "-d", "."])
      ++ argv.drop 2 := by
  cases kotlin <;> simp [buildCommands, addSources_eq]

/-- What lines 61-69 leave: `kotlin` is set exactly when `argv[1]` is
`--language=kotlin`, and the shifted `argv` is `argv[0]` followed by the
positional arguments. -/
theorem parseLanguage_eq (argv : List String) :
    parseLanguage argv =
      (decide (argv[1]? = some "--language=kotlin"), argv.take 1 ++ positionals argv) := by
  match argv with
  | [] => simp [parseLanguage, positionals]
  | [a] => simp [parseLanguage, positionals]
  | a0 :: a1 :: rest =>
    by_cases hf : isLanguageFlag a1 = true
    · simp [parseLanguage, positionals, hf]
    · have hk : a1 ≠ "--language=kotlin" := by
        rintro rfl
        exact hf (by decide)
      simp [parseLanguage, positionals, hf, hk]

theorem synthesize_eq (argv : List String) :
    synthesize argv =
      if (argv.take 1 ++ positionals argv).length < 3 then none
      else some (buildCommands (decide (argv[1]? = some "--language=kotlin"))
        (argv.take 1 ++ positionals argv)) := by
  simp [synthesize, parseLanguage_eq]

theorem buildCommands_heads (kotlin : Bool) (argv : List String) :
    (buildCommands kotlin argv).compiler_args.head? =
        some (if kotlin then "/usr/bin/java" else "/usr/bin/javac") ∧
      (buildCommands kotlin argv).native_image_args.head? =
        some "/usr/lib/jvm/graalvm/bin/native-image" := by
  cases kotlin <;> simp [buildCommands, addSources_eq]

theorem synthesize_heads (argv : List String) (c : Commands)
    (h : synthesize argv = some c) :
    c.compiler_args ≠ c.native_image_args := by
  unfold synthesize at h
  simp only at h
  split at h
  · cases h
  · cases Option.some.inj h
    intro heq
    have hh := buildCommands_heads (parseLanguage argv).1 (parseLanguage argv).2
    rw [heq, hh.2] at hh
    have h1 := Option.some.inj hh.1
    split at h1
    · exact absurd h1 (by decide)
    · exact absurd h1 (by decide)

/-! ## Lemmas on the process stages -/

theorem PLOG_FATAL_events (p : Proc) (f : Fatal) :
    ∀ e ∈ (PLOG_FATAL p f).1, e = Event.abort p f := by
  intro e he
  simpa [PLOG_FATAL] using he

theorem waitLoop_events (ws : List (Option Nat)) :
    ∀ e ∈ (waitLoop ws).1, e = Event.waitpid ∨ e = Event.abort Proc.parent Fatal.wait := by
  induction ws with
  | nil => intro e he; simp [waitLoop] at he; exact Or.inl he
  | cons x rest ih =>
    intro e he
    cases x with
    | none =>
      simp only [waitLoop, PLOG_FATAL, List.mem_cons, List.mem_singleton, List.not_mem_nil,
        or_false] at he
      exact he
    | some wstatus =>
      simp only [waitLoop] at he
      split at he
      · simp at he; exact Or.inl he
      · split at he
        · simp at he; exact Or.inl he
        · simp only [List.mem_cons] at he
          rcases he with he | he
          · exact Or.inl he
          · exact ih e he

/-- Statuses that are neither a normal exit nor a death by signal are passed
over by the loop of lines 47-55. -/
theorem waitLoop_skip (pre : List Nat) (ws : List (Option Nat))
    (hpre : ∀ s ∈ pre, WIFEXITED s = false ∧ WIFSIGNALED s = false) :
    (waitLoop (pre.map some ++ ws)).2 = (waitLoop ws).2 := by
  induction pre with
  | nil => rfl
  | cons s rest ih =>
    have hs := hpre s (List.mem_cons_self _ _)
    simp only [List.map_cons, List.cons_append, waitLoop, hs.1, hs.2, Bool.false_eq_true,
      if_false]
    exact ih (fun t ht => hpre t (List.mem_cons_of_mem _ ht))

theorem ForkExec_result (w : World) (args : List String) (h : w.vforkOk = true) :
    (ForkExec w args).2 = (waitLoop w.waits).2 := by
  simp [ForkExec, h]

/-- The only `execve` that `ForkExec` makes is the child's, of its
argument. -/
theorem ForkExec_execve (w : World) (args : List String) (p : Proc) (a : List String)
    (h : Event.execve p a ∈ (ForkExec w args).1) : p = Proc.child ∧ a = args := by
  unfold ForkExec at h
  split at h
  · simp only [List.mem_cons, List.mem_append] at h
    rcases h with (h | h) | h
    · cases h
    · unfold Exec at h
      split at h
      · simp only [List.mem_singleton, Event.execve.injEq] at h
        exact h
      · simp only [PLOG_FATAL, List.mem_cons, Event.execve.injEq, List.mem_singleton,
          List.not_mem_nil, or_false] at h
        rcases h with h | h
        · exact h
        · cases h
    · rcases waitLoop_events _ _ h with h1 | h1 <;> cases h1
  · simp only [PLOG_FATAL, List.mem_cons, List.mem_singleton, List.not_mem_nil, or_false] at h
    rcases h with h1 | h1 <;> cases h1

theorem wifexited_exit (N : Nat) : WIFEXITED (W_EXITCODE N 0) = true := by
  simp [WIFEXITED, WTERMSIG, W_EXITCODE, Nat.mul_mod]

theorem wexitstatus_exit (N : Nat) (h : N < 256) : WEXITSTATUS (W_EXITCODE N 0) = N := by
  simp [WEXITSTATUS, W_EXITCODE, Nat.mod_eq_of_lt h]

theorem wtermsig_signal (S : Nat) (core : Bool) (h : S < 128) :
    WTERMSIG (W_EXITCODE 0 S + (if core then WCOREFLAG else 0)) = S := by
  cases core <;> simp [WTERMSIG, W_EXITCODE, WCOREFLAG, Nat.mod_eq_of_lt h]

theorem wifsignaled_iff (wstatus : Nat) :
    WIFSIGNALED wstatus = true ↔ 0 < wstatus % 128 ∧ wstatus % 128 < 127 := by
  unfold WIFSIGNALED
  simp only [decide_eq_true_eq]
  have hlt : wstatus % 128 < 128 := Nat.mod_lt _ (by decide)
  split <;> omega

theorem runStages_of_ret (w : World) (c : Commands) (status : Int)
    (hs : (ForkExec w c.compiler_args).2 = Result.ret status) :
    runStages w c =
      if status ≠ 0 then ((ForkExec w c.compiler_args).1, Result.ret status)
      else ((ForkExec w c.compiler_args).1 ++ (Exec w Proc.parent c.native_image_args).1,
        (Exec w Proc.parent c.native_image_args).2) := by
  simp only [runStages, hs]

theorem main_of_synthesize (w : World) (argv : List String) (c : Commands)
    (h : synthesize argv = some c) : main w argv = runStages w c := by
  simp only [main, h]

theorem Exec_cases (w : World) (p : Proc) (args : List String) :
    Event.execve p args ∈ (Exec w p args).1 ∧
      ((Exec w p args).2 = Result.replaced args ∨
        (Exec w p args).2 = Result.fatal (Fatal.execve args)) := by
  unfold Exec
  split <;> simp [PLOG_FATAL]

/-- A run in which the front end returns a non-zero status: `main` returns
that status, and the only `execve` of the run is the child's, of the front-end
command. -/
theorem main_of_nonzero (w : World) (argv : List String) (c : Commands) (status : Int)
    (h : synthesize argv = some c)
    (hs : (ForkExec w c.compiler_args).2 = Result.ret status) (hne : status ≠ 0) :
    (main w argv).2 = Result.ret status ∧
      (∀ args, Event.execve Proc.parent args ∉ (main w argv).1) ∧
      (∀ p, Event.execve p c.native_image_args ∉ (main w argv).1) := by
  rw [main_of_synthesize w argv c h, runStages_of_ret w c status hs, if_pos hne]
  refine ⟨rfl, ?_, ?_⟩
  · intro args hm
    have := (ForkExec_execve _ _ _ _ hm).1
    cases this
  · intro p hm
    exact synthesize_heads argv c h (ForkExec_execve _ _ _ _ hm).2.symm

/-- The loop of lines 47-55 makes one `waitpid` call for each status that is
neither a normal exit nor a death by signal, and goes on. -/
theorem waitLoop_skip_events (pre : List Nat) (ws : List (Option Nat))
    (hpre : ∀ s ∈ pre, WIFEXITED s = false ∧ WIFSIGNALED s = false) :
    (waitLoop (pre.map some ++ ws)).1 =
      List.replicate pre.length Event.waitpid ++ (waitLoop ws).1 := by
  induction pre with
  | nil => rfl
  | cons s rest ih =>
    have hs := hpre s (List.mem_cons_self _ _)
    simp only [List.map_cons, List.cons_append, waitLoop, hs.1, hs.2, Bool.false_eq_true,
      if_false, List.length_cons, List.replicate_succ]
    exact congrArg (List.cons Event.waitpid)
      (ih (fun t ht => hpre t (List.mem_cons_of_mem _ ht)))

/-- When the loop of lines 47-55 returns a value, the answers of `waitpid`
were statuses that are not terminal followed by a terminal one, which alone
fixes the value. -/
theorem waitLoop_ret_inv (ws : List (Option Nat)) (v : Int)
    (h : (waitLoop ws).2 = Result.ret v) :
    ∃ (pre : List Nat) (t : Nat) (rest : List (Option Nat)),
      ws = pre.map some ++ some t :: rest ∧
      (∀ s ∈ pre, WIFEXITED s = false ∧ WIFSIGNALED s = false) ∧
      ((WIFEXITED t = true ∧ v = WEXITSTATUS t) ∨
        (WIFEXITED t = false ∧ WIFSIGNALED t = true ∧ v = WTERMSIG t)) := by
  induction ws with
  | nil => simp [waitLoop] at h
  | cons x rest ih =>
    cases x with
    | none => simp [waitLoop, PLOG_FATAL] at h
    | some s =>
      by_cases h1 : WIFEXITED s = true
      · simp only [waitLoop, h1, if_true, Result.ret.injEq] at h
        exact ⟨[], s, rest, rfl, by simp, Or.inl ⟨h1, h.symm⟩⟩
      · have h1f : WIFEXITED s = false := by simpa using h1
        by_cases h2 : WIFSIGNALED s = true
        · simp only [waitLoop, h1f, h2, Bool.false_eq_true, if_false, if_true,
            Result.ret.injEq] at h
          exact ⟨[], s, rest, rfl, by simp, Or.inr ⟨h1f, h2, h.symm⟩⟩
        · have h2f : WIFSIGNALED s = false := by simpa using h2
          simp only [waitLoop, h1f, h2f, Bool.false_eq_true, if_false] at h
          obtain ⟨pre, t, rest2, hws, hpre, ht⟩ := ih h
          refine ⟨s :: pre, t, rest2, by simp [hws], ?_, ht⟩
          intro u hu
          rcases List.mem_cons.mp hu with hu | hu
          · rw [hu]; exact ⟨h1f, h2f⟩
          · exact hpre u hu

theorem ForkExec_ret_vfork (w : World) (args : List String) (v : Int)
    (h : (ForkExec w args).2 = Result.ret v) : w.vforkOk = true := by
  by_contra hv
  simp [ForkExec, hv, PLOG_FATAL] at h

/-- The parent calls `execve` only after the front end has returned `0`. -/
theorem main_parent_execve (w : World) (argv : List String) (c : Commands)
    (a : List String) (h : synthesize argv = some c)
    (he : Event.execve Proc.parent a ∈ (main w argv).1) :
    (ForkExec w c.compiler_args).2 = Result.ret 0 ∧ a = c.native_image_args := by
  rw [main_of_synthesize w argv c h] at he
  unfold runStages at he
  simp only at he
  split at he
  · rename_i status hs
    split at he
    · exact absurd (ForkExec_execve _ _ _ _ he).1 (by decide)
    · rename_i h0
      have h0' : status = 0 := by simpa using h0
      subst h0'
      refine ⟨hs, ?_⟩
      rcases List.mem_append.mp he with he | he
      · exact absurd (ForkExec_execve _ _ _ _ he).1 (by decide)
      · unfold Exec at he
        split at he
        · simp only [List.mem_singleton, Event.execve.injEq, true_and] at he
          exact he
        · simp only [PLOG_FATAL, List.mem_cons, Event.execve.injEq, true_and,
            List.mem_singleton, List.not_mem_nil, or_false] at he
          rcases he with he | he
          · exact he
          · cases he
  · exact absurd (ForkExec_execve _ _ _ _ he).1 (by decide)

theorem wifsignaled_termsig (t : Nat) (h : WIFSIGNALED t = true) :
    WIFEXITED t = false ∧ WTERMSIG t ≠ 0 := by
  have ht := (wifsignaled_iff t).mp h
  unfold WIFEXITED WTERMSIG
  constructor
  · simp only [beq_eq_false_iff_ne, ne_eq]; omega
  · omega

/-- What `ForkExec` returns when `vfork` succeeds and the first terminal
status that `waitpid` reports is `t`. -/
theorem ForkExec_terminal (w : World) (args : List String) (pre : List Nat) (t : Nat)
    (rest : List (Option Nat)) (hv : w.vforkOk = true)
    (hw : w.waits = pre.map some ++ some t :: rest)
    (hpre : ∀ s ∈ pre, WIFEXITED s = false ∧ WIFSIGNALED s = false) :
    (WIFEXITED t = true → (ForkExec w args).2 = Result.ret (WEXITSTATUS t)) ∧
      (WIFSIGNALED t = true → (ForkExec w args).2 = Result.ret (WTERMSIG t)) := by
  rw [ForkExec_result w args hv, hw, waitLoop_skip pre _ hpre]
  constructor
  · intro h1
    simp only [waitLoop, h1, if_true]
  · intro h2
    simp only [waitLoop, (wifsignaled_termsig t h2).1, h2, Bool.false_eq_true, if_false,
      if_true]

theorem waitLoop_result_cases (ws : List (Option Nat)) :
    (∃ v, (waitLoop ws).2 = Result.ret v) ∨ (waitLoop ws).2 = Result.fatal Fatal.wait ∨
      (waitLoop ws).2 = Result.blocked := by
  induction ws with
  | nil => exact Or.inr (Or.inr rfl)
  | cons x rest ih =>
    cases x with
    | none => exact Or.inr (Or.inl rfl)
    | some s =>
      simp only [waitLoop]
      split
      · exact Or.inl ⟨_, rfl⟩
      · split
        · exact Or.inl ⟨_, rfl⟩
        · exact ih

/-- Every event of the front-end stage is an event of the run of `main`. -/
theorem main_events_of_ForkExec (w : World) (argv : List String) (c : Commands)
    (h : synthesize argv = some c) (e : Event)
    (he : e ∈ (ForkExec w c.compiler_args).1) : e ∈ (main w argv).1 := by
  rw [main_of_synthesize w argv c h]
  unfold runStages
  simp only
  split
  · split
    · exact he
    · exact List.mem_append_left _ he
  · exact he

/-- A run of `main` never ends in the abort of line 31 for the front-end
command: that `execve` is the child's. -/
theorem main_not_fatal_frontend (w : World) (argv : List String) (c : Commands)
    (h : synthesize argv = some c) :
    (main w argv).2 ≠ Result.fatal (Fatal.execve c.compiler_args) := by
  rw [main_of_synthesize w argv c h]
  unfold runStages
  simp only
  split
  · split
    · intro hc; cases hc
    · rcases (Exec_cases w Proc.parent c.native_image_args).2 with h1 | h1
      · rw [h1]; intro hc; cases hc
      · rw [h1]
        intro hc
        have := Fatal.execve.inj (Result.fatal.inj hc)
        exact synthesize_heads argv c h this.symm
  · rename_i r hr
    intro hc
    by_cases hv : w.vforkOk = true
    · rw [ForkExec_result w _ hv] at hc
      rcases waitLoop_result_cases w.waits with ⟨v, h1⟩ | h1 | h1 <;>
        · rw [h1] at hc; cases hc
    · simp [ForkExec, hv, PLOG_FATAL] at hc

/-- The ahead-of-time command for a source list given as the sources before
one source, that source, and the sources after it. -/
theorem synthesize_java_split (argv0 target x : String) (before after : List String)
    (h : isLanguageFlag target = false) :
    (synthesize (argv0 :: target :: (before ++ x :: after))).map Commands.native_image_args =
      some (["/usr/lib/jvm/graalvm/bin/native-image", "-dsa", "-H:NumberOfThreads=1",
          "-J-Xms512M", "-J-Xmx896M"]
        ++ before.map (symbolOf false) ++ [symbolOf false x] ++ after.map (symbolOf false)
        ++ [target]) := by
  cases before with
  | nil => rw [List.nil_append, synthesize_java _ _ _ _ h]; simp
  | cons b bs => rw [List.cons_append, synthesize_java _ _ _ _ h]; simp

theorem synthesize_kotlin_split (argv0 target x : String) (before after : List String) :
    (synthesize (argv0 :: "--language=kotlin" :: target :: (before ++ x :: after))).map
        Commands.native_image_args =
      some (["/usr/lib/jvm/graalvm/bin/native-image", "-dsa", "-H:NumberOfThreads=1",
          "-J-Xms512M", "-J-Xmx896M", "-cp", "/usr/lib/jvm/kotlinc/lib/kotlin-stdlib.jar:."]
        ++ before.map (symbolOf true) ++ [symbolOf true x] ++ after.map (symbolOf true)
        ++ [target]) := by
  cases before with
  | nil => rw [List.nil_append, synthesize_kotlin]; simp
  | cons b bs => rw [List.cons_append, synthesize_kotlin]; simp

/-- The test of line 70 in terms of what lines 61-69 leave: `main` builds its
commands if and only if at least two arguments follow `argv[0]` once the
argument that line 62 takes for the language flag has been removed.
Otherwise the run consists of the usage abort of line 71 alone.  When the
commands are built, the shifted `argv` is `argv[0]`, a target, and a non-empty
list of sources. -/
theorem usage_check_of_recognised_flag (w : World) (argv : List String) :
    ((∃ c, synthesize argv = some c) ↔ 2 ≤ (positionals argv).length) ∧
      (¬ 2 ≤ (positionals argv).length →
        synthesize argv = none ∧
        main w argv =
          ([Event.abort Proc.parent (Fatal.usage argv.head?)],
            Result.fatal (Fatal.usage argv.head?))) ∧
      (∀ c, synthesize argv = some c →
        ∃ argv0 target source sources,
          positionals argv = target :: source :: sources ∧
          (parseLanguage argv).2 = argv0 :: target :: source :: sources ∧
          ((parseLanguage argv).2.drop 2 = source :: sources) ∧
          c = buildCommands (parseLanguage argv).1 (argv0 :: target :: source :: sources) ∧
          main w argv = runStages w c) := by
  have hlen : ¬ (argv.take 1 ++ positionals argv).length < 3 ↔
      2 ≤ (positionals argv).length := by
    match argv with
    | [] => simp [positionals]
    | a :: rest => simp
  have hnone : ¬ 2 ≤ (positionals argv).length → synthesize argv = none := by
    intro hn
    rw [synthesize_eq, if_pos]
    exact Decidable.not_not.mp (fun h => hn (hlen.mp h))
  refine ⟨?_, ?_, ?_⟩
  · constructor
    · rintro ⟨c, hc⟩
      by_contra hn
      rw [hnone hn] at hc
      cases hc
    · intro h2
      rw [synthesize_eq, if_neg (hlen.mpr h2)]
      exact ⟨_, rfl⟩
  · intro hn
    refine ⟨hnone hn, ?_⟩
    have hh : (parseLanguage argv).2.head? = argv.head? := by
      rw [parseLanguage_eq]
      match argv with
      | [] => simp [positionals]
      | a :: rest => simp
    simp only [main, hnone hn, PLOG_FATAL, hh]
  · intro c hc
    have hm := main_of_synthesize w argv c hc
    have hp := parseLanguage_eq argv
    rw [synthesize_eq] at hc
    split at hc
    · cases hc
    · rename_i hl
      have h2 := hlen.mp hl
      match argv, hp, h2, hc, hm with
      | [], _, h2, _, _ => simp [positionals] at h2
      | a :: rest, hp, h2, hc, hm =>
        match hpos : positionals (a :: rest), h2 with
        | [], h2 => simp at h2
        | [t], h2 => simp at h2
        | t :: s1 :: ss, _ =>
          refine ⟨a, t, s1, ss, rfl, ?_, ?_, ?_, hm⟩
          · rw [hp, hpos]; rfl
          · rw [hp, hpos]; rfl
          · rw [hp]
            simp only [hpos] at hc ⊢
            exact (Option.some.inj hc).symm

/-! ## The claims -/

/-- C1: with no language flag (line 62 does not take `argv[1]`, the target,
for one), the front-end command that `main` builds for a target and a
non-empty list of sources is the `javac` path, its three tuning flags, `-d`,
`.` and then every source path, unmodified and in input order; for target
`App` and source `Main.java` it ends in `Main.java`. -/
theorem C1_frontend_java (argv0 target source : String) (sources : List String)
    (h : isLanguageFlag target = false) :
    (synthesize (argv0 :: target :: source :: sources)).map Commands.compiler_args =
        some (["/usr/bin/javac", "-J-Xmx896M", "-J-Xms32M", "-J-XX:+UseSerialGC", "-d", "."]
          ++ (source :: sources)) ∧
      (synthesize [argv0, "App", "Main.java"]).map Commands.compiler_args =
        some ["/usr/bin/javac", "-J-Xmx896M", "-J-Xms32M", "-J-XX:+UseSerialGC", "-d", ".",
          "Main.java"] := by
  constructor
  · rw [synthesize_java _ _ _ _ h]; rfl
  · rw [synthesize_java _ _ _ _ (by decide)]; rfl

theorem C1_frontend_java_witness :
    isLanguageFlag "out/App" = false ∧
      ((synthesize ["java_compile", "out/App", "A.java", "B.java"]).map
          Commands.compiler_args =
        some (["/usr/bin/javac", "-J-Xmx896M", "-J-Xms32M", "-J-XX:+UseSerialGC", "-d", "."]
          ++ ["A.java", "B.java"]) ∧
      (synthesize ["java_compile", "App", "Main.java"]).map Commands.compiler_args =
        some ["/usr/bin/javac", "-J-Xmx896M", "-J-Xms32M", "-J-XX:+UseSerialGC", "-d", ".",
          "Main.java"]) :=
  ⟨by decide, C1_frontend_java "java_compile" "out/App" "A.java" ["B.java"] (by decide)⟩

/-- C3: when `argv[1]` is `--language=kotlin`, the ahead-of-time command that
`main` builds for a target and the sources `s_1..s_n` (C strings) is the
`native-image` path, its four fixed flags, `-cp` and the kotlin-stdlib
classpath, then `TrimExtension(s_i, ".kt")` followed by `Kt` for each source in
input order, then the target; for `App` and `Main.kt` the symbol list is
`[MainKt]`. -/
theorem C3_aot_kotlin (argv0 target source : String) (sources : List String)
    (hc : ∀ s ∈ source :: sources, IsCString s) :
    (synthesize (argv0 :: "--language=kotlin" :: target :: source :: sources)).map
          Commands.native_image_args =
        some (["/usr/lib/jvm/graalvm/bin/native-image", "-dsa", "-H:NumberOfThreads=1",
            "-J-Xms512M", "-J-Xmx896M", "-cp", "/usr/lib/jvm/kotlinc/lib/kotlin-stdlib.jar:."]
          ++ (source :: sources).map (fun s => TrimExtension s ".kt" ++ "Kt") ++ [target]) ∧
      (synthesize [argv0, "--language=kotlin", "App", "Main.kt"]).map
          Commands.native_image_args =
        some (["/usr/lib/jvm/graalvm/bin/native-image", "-dsa", "-H:NumberOfThreads=1",
            "-J-Xms512M", "-J-Xmx896M", "-cp", "/usr/lib/jvm/kotlinc/lib/kotlin-stdlib.jar:."]
          ++ ["MainKt"] ++ ["App"]) := by
  constructor
  · rw [synthesize_kotlin, ← map_symbolOf_kotlin _ hc]; rfl
  · rw [synthesize_kotlin,
      map_symbolOf_kotlin _ (by decide : ∀ s ∈ ["Main.kt"], IsCString s)]
    decide

theorem C3_aot_kotlin_witness :
    (∀ s ∈ ["A.kt", "B.kt"], IsCString s) ∧
      ((synthesize ["java_compile", "--language=kotlin", "App", "A.kt", "B.kt"]).map
          Commands.native_image_args =
        some (["/usr/lib/jvm/graalvm/bin/native-image", "-dsa", "-H:NumberOfThreads=1",
            "-J-Xms512M", "-J-Xmx896M", "-cp", "/usr/lib/jvm/kotlinc/lib/kotlin-stdlib.jar:."]
          ++ ["A.kt", "B.kt"].map (fun s => TrimExtension s ".kt" ++ "Kt") ++ ["App"]) ∧
      (synthesize ["java_compile", "--language=kotlin", "App", "Main.kt"]).map
          Commands.native_image_args =
        some (["/usr/lib/jvm/graalvm/bin/native-image", "-dsa", "-H:NumberOfThreads=1",
            "-J-Xms512M", "-J-Xmx896M", "-cp", "/usr/lib/jvm/kotlinc/lib/kotlin-stdlib.jar:."]
          ++ ["MainKt"] ++ ["App"])) :=
  ⟨by decide, C3_aot_kotlin "java_compile" "App" "A.kt" ["B.kt"] (by decide)⟩

/-- C4: the front-end command is a function of the selector and the sources
alone.  Whenever `main` builds its commands, the front-end command is the
`java` Kotlin-compiler invocation when `argv[1]` is `--language=kotlin` and the
`javac` invocation otherwise, followed by `-d`, `.` and the sources (the
positional arguments after the target) in input order; with the primary
selector its program path is `/usr/bin/javac`. -/
theorem C4_frontend_driver (argv : List String) (c : Commands)
    (h : synthesize argv = some c) :
    c.compiler_args =
        (if argv[1]? = some "--language=kotlin" then
          ["/usr/bin/java", "-Xmx896M", "-Xms32M", "-XX:+UseSerialGC", "-cp",
            "/usr/lib/jvm/kotlinc/lib/kotlin-preloader.jar",
            "org.jetbrains.kotlin.preloading.Preloader", "-cp",
            "/usr/lib/jvm/kotlinc/lib/kotlin-compiler.jar",
            "org.jetbrains.kotlin.cli.jvm.K2JVMCompiler", "-d", "."]
        else
          ["/usr/bin/javac", "-J-Xmx896M", "-J-Xms32M", "-J-XX:+UseSerialGC", "-d", "."])
        ++ (positionals argv).drop 1 ∧
      (argv[1]? ≠ some "--language=kotlin" →
        c.compiler_args.head? = some "/usr/bin/javac") ∧
      (∀ argv0 target source : String, ∀ sources : List String,
        (synthesize (argv0 :: "--language=kotlin" :: target :: source :: sources)).map
            Commands.compiler_args =
          some (["/usr/bin/java", "-Xmx896M", "-Xms32M", "-XX:+UseSerialGC", "-cp",
              "/usr/lib/jvm/kotlinc/lib/kotlin-preloader.jar",
              "org.jetbrains.kotlin.preloading.Preloader", "-cp",
              "/usr/lib/jvm/kotlinc/lib/kotlin-compiler.jar",
              "org.jetbrains.kotlin.cli.jvm.K2JVMCompiler", "-d", "."]
            ++ (source :: sources))) := by
  have hc : c.compiler_args =
        (if argv[1]? = some "--language=kotlin" then
          ["/usr/bin/java", "-Xmx896M", "-Xms32M", "-XX:+UseSerialGC", "-cp",
            "/usr/lib/jvm/kotlinc/lib/kotlin-preloader.jar",
            "org.jetbrains.kotlin.preloading.Preloader", "-cp",
            "/usr/lib/jvm/kotlinc/lib/kotlin-compiler.jar",
            "org.jetbrains.kotlin.cli.jvm.K2JVMCompiler", "-d", "."]
        else
          ["/usr/bin/javac", "-J-Xmx896M", "-J-Xms32M", "-J-XX:+UseSerialGC", "-d", "."])
        ++ (positionals argv).drop 1 := by
    rw [synthesize_eq] at h
    split at h
    · cases h
    · rename_i hlen
      have hc := congrArg Commands.compiler_args (Option.some.inj h)
      rw [buildCommands_compiler_args] at hc
      rw [← hc]
      match argv with
      | [] => simp [positionals] at hlen
      | a :: rest => simp
  refine ⟨hc, ?_, ?_⟩
  · intro hk
    rw [hc, if_neg hk]
    rfl
  · intro argv0 target source sources
    rw [synthesize_kotlin]
    rfl

theorem C4_frontend_driver_witness :
    synthesize ["java_compile", "--language=scala", "App", "Main.java"] =
        some (buildCommands false ["java_compile", "App", "Main.java"]) ∧
      (buildCommands false ["java_compile", "App", "Main.java"]).compiler_args.head? =
        some "/usr/bin/javac" :=
  ⟨by decide,
    (C4_frontend_driver ["java_compile", "--language=scala", "App", "Main.java"]
      (buildCommands false ["java_compile", "App", "Main.java"]) (by decide)).2.1
      (by decide)⟩

/-- C5: `TrimExtension(f, e)` is `f` without its last `|e|` characters when
the characters of `e` are a suffix of `f`, and `f` itself otherwise (so also
when `f` is shorter than `e` or differs in case); `Foo.java` gives `Foo`,
while `Foo` and `Foo.JAVA` are returned unchanged. -/
theorem C5_trimExtension (f e : String) :
    TrimExtension f e =
        (if e.data <:+ f.data then ⟨f.data.take (f.data.length - e.data.length)⟩ else f) ∧
      (e.data <:+ f.data → (TrimExtension f e).data ++ e.data = f.data) ∧
      (f.length < e.length → TrimExtension f e = f) ∧
      TrimExtension "Foo.java" ".java" = "Foo" ∧
      TrimExtension "Foo" ".java" = "Foo" ∧
      TrimExtension "Foo.JAVA" ".java" = "Foo.JAVA" := by
  refine ⟨?_, ?_, ?_, by decide, by decide, by decide⟩
  · by_cases h : e.data <:+ f.data
    · rw [if_pos h, trim_of_suffix _ _ h]
    · rw [if_neg h, trim_of_not_suffix _ _ h]
  · intro h
    rw [trim_of_suffix _ _ h]
    exact List.suffix_iff_eq_append.mp h
  · intro hlt
    apply trim_of_not_suffix
    intro h
    exact absurd h.length_le (Nat.not_le.mpr hlt)

/-- C6 fails as stated: trimming `.java` from `Foo.java.java` gives
`Foo.java`, and trimming that again gives `Foo`. -/
theorem C6_not_idempotent :
    TrimExtension "Foo.java.java" ".java" = "Foo.java" ∧
      TrimExtension (TrimExtension "Foo.java.java" ".java") ".java" = "Foo" ∧
      TrimExtension (TrimExtension "Foo.java.java" ".java") ".java" ≠
        TrimExtension "Foo.java.java" ".java" := by
  decide

/-- C6 as amended: trimming an already-trimmed name is a no-op exactly when
the extension is empty or the name does not end with the extension written
twice. -/
theorem C6_idempotent_iff (f e : String) :
    TrimExtension (TrimExtension f e) e = TrimExtension f e ↔
      (e = "" ∨ ¬ (e.data ++ e.data) <:+ f.data) := by
  by_cases he : e.data = []
  · have he2 : e = "" := String.ext he
    subst he2
    simp only [true_or, iff_true]
    rw [trim_empty, trim_empty]
  · have he2 : e ≠ "" := fun h => he (by rw [h])
    simp only [he2, false_or]
    by_cases hs : e.data <:+ f.data
    · obtain ⟨p, hp⟩ := hs
      have hT : TrimExtension f e = ⟨p⟩ := by
        have : f = (⟨p⟩ : String) ++ e := String.ext (by rw [String.data_append]; exact hp.symm)
        rw [this, trim_append]
      rw [hT]
      by_cases hs2 : e.data <:+ p
      · have hne : TrimExtension ⟨p⟩ e ≠ ⟨p⟩ := by
          intro heq
          obtain ⟨q, hq⟩ := hs2
          have hq2 : (⟨p⟩ : String) = (⟨q⟩ : String) ++ e :=
            String.ext (by rw [String.data_append]; exact hq.symm)
          rw [hq2, trim_append] at heq
          have hlen := congrArg String.length heq
          simp only [String.length_append] at hlen
          have : e.length = 0 := by omega
          exact he (List.length_eq_zero.mp this)
        constructor
        · intro h; exact absurd h hne
        · intro h
          exfalso
          apply h
          rw [← hp]
          obtain ⟨q, hq⟩ := hs2
          exact ⟨q, by rw [← hq, List.append_assoc]⟩
      · constructor
        · intro _ h2
          apply hs2
          rw [← hp] at h2
          obtain ⟨q, hq⟩ := h2
          have hq' : (q ++ e.data) ++ e.data = p ++ e.data := by
            rw [List.append_assoc]; exact hq
          exact ⟨q, List.append_cancel_right hq'⟩
        · intro _
          exact trim_of_not_suffix _ _ hs2
    · rw [trim_of_not_suffix _ _ hs]
      constructor
      · intro _ h2
        apply hs
        obtain ⟨q, hq⟩ := h2
        exact ⟨q ++ e.data, by rw [List.append_assoc]; exact hq⟩
      · intro _
        exact trim_of_not_suffix _ _ hs

/-- C7 fails on `argv[1] = "--language=--language="`: the argument begins
with `--language=`, yet the test of line 62 (`rfind(...) == 0`, the position
of the last occurrence) is false, nothing is consumed, and the argument
becomes the target while `App` and `Main.java` are compiled as the sources. -/
theorem C7_flag_not_consumed :
    "--language=".data <+: "--language=--language=".data ∧
      rfind "--language=--language=" "--language=" = some 11 ∧
      isLanguageFlag "--language=--language=" = false ∧
      parseLanguage ["java_compile", "--language=--language=", "App", "Main.java"] =
        (false, ["java_compile", "--language=--language=", "App", "Main.java"]) ∧
      synthesize ["java_compile", "--language=--language=", "App", "Main.java"] =
        some ⟨["/usr/bin/javac", "-J-Xmx896M", "-J-Xms32M", "-J-XX:+UseSerialGC", "-d", ".",
            "App", "Main.java"],
          ["/usr/lib/jvm/graalvm/bin/native-image", "-dsa", "-H:NumberOfThreads=1",
            "-J-Xms512M", "-J-Xmx896M", "App", "Main", "--language=--language="]⟩ ∧
      synthesize ["java_compile", "--language=x", "App", "Main.java"] =
        some ⟨["/usr/bin/javac", "-J-Xmx896M", "-J-Xms32M", "-J-XX:+UseSerialGC", "-d", ".",
            "Main.java"],
          ["/usr/lib/jvm/graalvm/bin/native-image", "-dsa", "-H:NumberOfThreads=1",
            "-J-Xms512M", "-J-Xmx896M", "Main", "App"]⟩ := by
  decide

/-- C8 fails on `argv = [java_compile, --language=--language=, App]`: once
the leading argument that begins with `--language=` is removed, the one
positional argument `App` remains, so the usage branch is due.  But the test
of line 62 is false on that argument (the last occurrence of `--language=`
starts at 11), nothing is removed, `argc` is 3, line 70 passes, and `main`
builds and runs both commands with the flag as the target and `App` as the
only source. -/
theorem C8_usage_check_missed :
    positionalsSpec ["java_compile", "--language=--language=", "App"] = ["App"] ∧
      isLanguageFlag "--language=--language=" = false ∧
      positionals ["java_compile", "--language=--language=", "App"] =
        ["--language=--language=", "App"] ∧
      synthesize ["java_compile", "--language=--language=", "App"] =
        some ⟨["/usr/bin/javac", "-J-Xmx896M", "-J-Xms32M", "-J-XX:+UseSerialGC", "-d", ".",
            "App"],
          ["/usr/lib/jvm/graalvm/bin/native-image", "-dsa", "-H:NumberOfThreads=1",
            "-J-Xms512M", "-J-Xmx896M", "App", "--language=--language="]⟩ ∧
      main ⟨true, fun _ => true, [some (W_EXITCODE 0 0)]⟩
          ["java_compile", "--language=--language=", "App"] =
        ([Event.vfork,
          Event.execve Proc.child
            ["/usr/bin/javac", "-J-Xmx896M", "-J-Xms32M", "-J-XX:+UseSerialGC", "-d", ".",
              "App"],
          Event.waitpid,
          Event.execve Proc.parent
            ["/usr/lib/jvm/graalvm/bin/native-image", "-dsa", "-H:NumberOfThreads=1",
              "-J-Xms512M", "-J-Xmx896M", "App", "--language=--language="]],
         Result.replaced
            ["/usr/lib/jvm/graalvm/bin/native-image", "-dsa", "-H:NumberOfThreads=1",
              "-J-Xms512M", "-J-Xmx896M", "App", "--language=--language="]) ∧
      synthesize ["java_compile", "--language=x", "App"] = none := by
  decide

/-- C9: when the front-end stage returns the status `s`: if `s` is not zero
then `main` returns exactly `s`, the parent never calls `execve`, and no
process execs the ahead-of-time command; if `s` is zero then the parent calls
`execve` on the ahead-of-time command, and the run ends with the process
replaced or with the fatal abort of line 31, never with a status returned by
`main`. -/
theorem C9_status_propagation (w : World) (argv : List String) (c : Commands) (s : Int)
    (h : synthesize argv = some c)
    (hs : (ForkExec w c.compiler_args).2 = Result.ret s) :
    (s ≠ 0 →
        (main w argv).2 = Result.ret s ∧
        (∀ args, Event.execve Proc.parent args ∉ (main w argv).1) ∧
        (∀ p, Event.execve p c.native_image_args ∉ (main w argv).1)) ∧
      (s = 0 →
        Event.execve Proc.parent c.native_image_args ∈ (main w argv).1 ∧
        ((main w argv).2 = Result.replaced c.native_image_args ∨
          (main w argv).2 = Result.fatal (Fatal.execve c.native_image_args)) ∧
        (∀ n, (main w argv).2 ≠ Result.ret n)) := by
  constructor
  · intro hne
    exact main_of_nonzero w argv c s h hs hne
  · intro h0
    rw [main_of_synthesize w argv c h, runStages_of_ret w c s hs, if_neg (by simpa using h0)]
    have he := Exec_cases w Proc.parent c.native_image_args
    refine ⟨List.mem_append_right _ he.1, he.2, ?_⟩
    intro n hn
    rcases he.2 with h1 | h1 <;> · simp only at hn; rw [h1] at hn; cases hn

theorem C9_status_propagation_witness :
    synthesize ["java_compile", "App", "Main.java"] =
        some (buildCommands false ["java_compile", "App", "Main.java"]) ∧
      (ForkExec ⟨true, fun _ => true, [some (W_EXITCODE 2 0)]⟩
        (buildCommands false ["java_compile", "App", "Main.java"]).compiler_args).2 =
          Result.ret 2 ∧
      (main ⟨true, fun _ => true, [some (W_EXITCODE 2 0)]⟩
        ["java_compile", "App", "Main.java"]).2 = Result.ret 2 :=
  ⟨by decide, by decide,
    ((C9_status_propagation ⟨true, fun _ => true, [some (W_EXITCODE 2 0)]⟩
      ["java_compile", "App", "Main.java"]
      (buildCommands false ["java_compile", "App", "Main.java"]) 2
      (by decide) (by decide)).1 (by decide)).1⟩

/-- C10: once `vfork` has succeeded, `ForkExec` returns `N` when the terminal
wait status is that of a child that exited normally with code `N`, and `S`
when it is that of a child killed by signal `S` (with or without a core dump),
whatever stop and continue notifications came first; so when the front end is
killed by signal 9, `main` returns 9 and the parent never calls `execve`. -/
theorem C10_wait_status (w : World) (args : List String) (pre : List Nat)
    (rest : List (Option Nat)) (N S : Nat) (core : Bool)
    (hv : w.vforkOk = true)
    (hpre : ∀ s ∈ pre, WIFEXITED s = false ∧ WIFSIGNALED s = false)
    (hN : N < 256) (hS : 0 < S ∧ S < 127) :
    (w.waits = pre.map some ++ some (W_EXITCODE N 0) :: rest →
        (ForkExec w args).2 = Result.ret N) ∧
      (w.waits = pre.map some ++
          some (W_EXITCODE 0 S + (if core then WCOREFLAG else 0)) :: rest →
        (ForkExec w args).2 = Result.ret S) ∧
      (∀ argv c, synthesize argv = some c →
        w.waits = pre.map some ++ some (W_EXITCODE 0 9) :: rest →
        (main w argv).2 = Result.ret 9 ∧
          ∀ a, Event.execve Proc.parent a ∉ (main w argv).1) := by
  have hsig : ∀ T : Nat, 0 < T ∧ T < 127 → ∀ b : Bool, ∀ a : List String,
      w.waits = pre.map some ++ some (W_EXITCODE 0 T + (if b then WCOREFLAG else 0)) :: rest →
      (ForkExec w a).2 = Result.ret T := by
    intro T hT b a hw
    have ht := wtermsig_signal T b (by omega)
    have h1 : WIFEXITED (W_EXITCODE 0 T + (if b then WCOREFLAG else 0)) = false := by
      simp only [WIFEXITED, ht]
      simp only [beq_eq_false_iff_ne, ne_eq]
      omega
    have h2 : WIFSIGNALED (W_EXITCODE 0 T + (if b then WCOREFLAG else 0)) = true := by
      rw [wifsignaled_iff]
      unfold WTERMSIG at ht
      rw [ht]
      exact hT
    rw [ForkExec_result w a hv, hw, waitLoop_skip pre _ hpre]
    simp only [waitLoop, h1, h2, Bool.false_eq_true, if_false, if_true, ht]
  refine ⟨?_, hsig S hS core args, ?_⟩
  · intro hw
    rw [ForkExec_result w args hv, hw, waitLoop_skip pre _ hpre]
    simp only [waitLoop, wifexited_exit, if_true, wexitstatus_exit N hN]
  · intro argv c hc hw
    have h9 := hsig 9 (by decide) false c.compiler_args (by simpa using hw)
    have hm := main_of_nonzero w argv c 9 hc h9 (by decide)
    exact ⟨hm.1, hm.2.1⟩

theorem C10_wait_status_witness :
    (∀ s ∈ [W_STOPCODE 19, W_CONTINUED], WIFEXITED s = false ∧ WIFSIGNALED s = false) ∧
      (ForkExec
        ⟨true, fun _ => true, [some (W_STOPCODE 19), some W_CONTINUED, some (W_EXITCODE 3 0)]⟩
        ["/usr/bin/javac"]).2 = Result.ret 3 ∧
      (main
        ⟨true, fun _ => true, [some (W_STOPCODE 19), some W_CONTINUED, some (W_EXITCODE 0 9)]⟩
        ["java_compile", "App", "Main.java"]).2 = Result.ret 9 :=
  ⟨by decide,
    (C10_wait_status
      ⟨true, fun _ => true, [some (W_STOPCODE 19), some W_CONTINUED, some (W_EXITCODE 3 0)]⟩
      ["/usr/bin/javac"] [W_STOPCODE 19, W_CONTINUED] [] 3 9 false rfl (by decide)
      (by decide) (by decide)).1 rfl,
    ((C10_wait_status
      ⟨true, fun _ => true, [some (W_STOPCODE 19), some W_CONTINUED, some (W_EXITCODE 0 9)]⟩
      ["/usr/bin/javac"] [W_STOPCODE 19, W_CONTINUED] [] 3 9 false rfl (by decide)
      (by decide) (by decide)).2.2 ["java_compile", "App", "Main.java"]
      (buildCommands false ["java_compile", "App", "Main.java"]) (by decide) rfl).1⟩

/-- C11: `ForkExec` returns `0` if and only if `vfork` succeeded and the
terminal wait status (the first one that is a normal exit or a death by
signal) is a normal exit with exit code `0`.  A status of a child killed by a
signal is not a normal exit and its `WTERMSIG` is not zero, so `ForkExec`
returns a non-zero value for it.  Hence whenever the parent of a run of `main`
calls `execve`, the front end had exited normally with code `0`. -/
theorem C11_zero_iff_clean_exit (w : World) (args : List String) :
    ((ForkExec w args).2 = Result.ret 0 ↔
        (w.vforkOk = true ∧
          ∃ (pre : List Nat) (t : Nat) (rest : List (Option Nat)),
            w.waits = pre.map some ++ some t :: rest ∧
            (∀ s ∈ pre, WIFEXITED s = false ∧ WIFSIGNALED s = false) ∧
            WIFEXITED t = true ∧ WEXITSTATUS t = 0)) ∧
      (∀ (pre : List Nat) (t : Nat) (rest : List (Option Nat)),
        w.vforkOk = true → w.waits = pre.map some ++ some t :: rest →
        (∀ s ∈ pre, WIFEXITED s = false ∧ WIFSIGNALED s = false) →
        WIFSIGNALED t = true →
        (ForkExec w args).2 = Result.ret (WTERMSIG t) ∧ WTERMSIG t ≠ 0 ∧
          (ForkExec w args).2 ≠ Result.ret 0) ∧
      (∀ (S : Nat) (core : Bool), 0 < S → S < 127 →
        WIFSIGNALED (W_EXITCODE 0 S + (if core then WCOREFLAG else 0)) = true) ∧
      (∀ (argv : List String) (c : Commands) (a : List String),
        synthesize argv = some c → Event.execve Proc.parent a ∈ (main w argv).1 →
        ∃ (pre : List Nat) (t : Nat) (rest : List (Option Nat)),
          w.waits = pre.map some ++ some t :: rest ∧
          (∀ s ∈ pre, WIFEXITED s = false ∧ WIFSIGNALED s = false) ∧
          WIFEXITED t = true ∧ WEXITSTATUS t = 0) := by
  have hfwd : ∀ a : List String, (ForkExec w a).2 = Result.ret 0 →
      (w.vforkOk = true ∧
        ∃ (pre : List Nat) (t : Nat) (rest : List (Option Nat)),
          w.waits = pre.map some ++ some t :: rest ∧
          (∀ s ∈ pre, WIFEXITED s = false ∧ WIFSIGNALED s = false) ∧
          WIFEXITED t = true ∧ WEXITSTATUS t = 0) := by
    intro a h
    have hv := ForkExec_ret_vfork w a 0 h
    rw [ForkExec_result w a hv] at h
    obtain ⟨pre, t, rest, hw, hpre, ht⟩ := waitLoop_ret_inv _ _ h
    refine ⟨hv, pre, t, rest, hw, hpre, ?_⟩
    rcases ht with ⟨h1, h2⟩ | ⟨_, h2, h3⟩
    · exact ⟨h1, by exact_mod_cast h2.symm⟩
    · exact absurd (by exact_mod_cast h3.symm) (wifsignaled_termsig t h2).2
  refine ⟨⟨hfwd args, ?_⟩, ?_, ?_, ?_⟩
  · rintro ⟨hv, pre, t, rest, hw, hpre, h1, h0⟩
    rw [(ForkExec_terminal w args pre t rest hv hw hpre).1 h1, h0]
    rfl
  · intro pre t rest hv hw hpre h2
    have hr := (ForkExec_terminal w args pre t rest hv hw hpre).2 h2
    have hne := (wifsignaled_termsig t h2).2
    refine ⟨hr, hne, ?_⟩
    rw [hr]
    intro h
    exact hne (by exact_mod_cast Result.ret.inj h)
  · intro S core h0 h127
    rw [wifsignaled_iff]
    have ht := wtermsig_signal S core (by omega)
    unfold WTERMSIG at ht
    rw [ht]
    exact ⟨h0, h127⟩
  · intro argv c a hc he
    exact (hfwd _ (main_parent_execve w argv c a hc he).1).2

/-- C12: for every argument vector that `main` accepts, the front-end command
and the ahead-of-time command are non-empty and their first token is a path
that begins with `/`; so entry `0` of the vector that `Exec` builds from each
of them exists and is that token, not the null pointer. -/
theorem C12_command_invariant (argv : List String) (c : Commands)
    (h : synthesize argv = some c) :
    c.compiler_args ≠ [] ∧ c.native_image_args ≠ [] ∧
      (∃ p, c.compiler_args.head? = some p ∧ p.data.head? = some '/') ∧
      (∃ p, c.native_image_args.head? = some p ∧ p.data.head? = some '/') ∧
      (execArgv c.compiler_args)[0]? = c.compiler_args.head?.map some ∧
      (execArgv c.native_image_args)[0]? = c.native_image_args.head?.map some := by
  unfold synthesize at h
  simp only at h
  split at h
  · cases h
  · cases Option.some.inj h
    have hh := buildCommands_heads (parseLanguage argv).1 (parseLanguage argv).2
    have harg : ∀ (l : List String) (p : String), l.head? = some p →
        l ≠ [] ∧ (execArgv l)[0]? = l.head?.map some := by
      intro l p hl
      cases l with
      | nil => cases hl
      | cons x xs => simp [execArgv]
    refine ⟨(harg _ _ hh.1).1, (harg _ _ hh.2).1, ⟨_, hh.1, ?_⟩, ⟨_, hh.2, by decide⟩,
      (harg _ _ hh.1).2, (harg _ _ hh.2).2⟩
    cases (parseLanguage argv).1 <;> decide

theorem C12_command_invariant_witness :
    synthesize ["java_compile", "--language=kotlin", "App", "Main.kt"] =
        some (buildCommands true ["java_compile", "App", "Main.kt"]) ∧
      (execArgv (buildCommands true ["java_compile", "App", "Main.kt"]).compiler_args)[0]? =
        (buildCommands true ["java_compile", "App", "Main.kt"]).compiler_args.head?.map some :=
  ⟨by decide,
    (C12_command_invariant ["java_compile", "--language=kotlin", "App", "Main.kt"]
      (buildCommands true ["java_compile", "App", "Main.kt"]) (by decide)).2.2.2.2.1⟩

/-- C13: when `vfork` has succeeded and `waitpid` reports any number of
statuses that are neither a normal exit nor a death by signal (stop and
continue notifications are such statuses) and then a terminal status `t`,
`ForkExec` returns the value of `t` alone, its exit code or its signal number:
the same value as when `t` is reported at once.  Each earlier status only
causes one more call of `waitpid`, and without a terminal status the loop does
not return. -/
theorem C13_wait_loop_retries (w : World) (args : List String) (pre : List Nat) (t : Nat)
    (rest : List (Option Nat)) (hv : w.vforkOk = true)
    (hw : w.waits = pre.map some ++ some t :: rest)
    (hpre : ∀ s ∈ pre, WIFEXITED s = false ∧ WIFSIGNALED s = false)
    (ht : WIFEXITED t = true ∨ WIFSIGNALED t = true) :
    (ForkExec w args).2 =
        Result.ret ((if WIFEXITED t = true then WEXITSTATUS t else WTERMSIG t : Nat) : Int) ∧
      (ForkExec w args).2 = (ForkExec ⟨w.vforkOk, w.execveOk, [some t]⟩ args).2 ∧
      (waitLoop w.waits).1 = List.replicate (pre.length + 1) Event.waitpid ∧
      (waitLoop (pre.map some)).2 = Result.blocked ∧
      (∀ sig, WIFEXITED (W_STOPCODE sig) = false ∧ WIFSIGNALED (W_STOPCODE sig) = false) ∧
      (WIFEXITED W_CONTINUED = false ∧ WIFSIGNALED W_CONTINUED = false) := by
  have hT := ForkExec_terminal w args pre t rest hv hw hpre
  have hT1 := ForkExec_terminal ⟨w.vforkOk, w.execveOk, [some t]⟩ args [] t [] hv rfl
    (by simp)
  have hval : (ForkExec w args).2 =
      Result.ret ((if WIFEXITED t = true then WEXITSTATUS t else WTERMSIG t : Nat) : Int) ∧
      (ForkExec w args).2 = (ForkExec ⟨w.vforkOk, w.execveOk, [some t]⟩ args).2 := by
    by_cases h1 : WIFEXITED t = true
    · rw [if_pos h1, hT.1 h1, hT1.1 h1]
      exact ⟨rfl, rfl⟩
    · have h2 : WIFSIGNALED t = true := ht.resolve_left h1
      rw [if_neg h1, hT.2 h2, hT1.2 h2]
      exact ⟨rfl, rfl⟩
  refine ⟨hval.1, hval.2, ?_, ?_, ?_, by decide⟩
  · rw [hw, waitLoop_skip_events pre _ hpre, List.replicate_succ']
    congr 1
    rcases ht with h1 | h2
    · simp only [waitLoop, h1, if_true]
    · simp only [waitLoop, (wifsignaled_termsig t h2).1, h2, Bool.false_eq_true, if_false,
        if_true]
  · have h0 := waitLoop_skip pre [] hpre
    rw [List.append_nil] at h0
    rw [h0]
    rfl
  · intro sig
    have hm : (sig * 256 + 127) % 128 = 127 := by omega
    constructor
    · simp only [WIFEXITED, WTERMSIG, W_STOPCODE, hm]
      rfl
    · have hns : ¬ WIFSIGNALED (W_STOPCODE sig) = true := by
        rw [wifsignaled_iff]
        unfold W_STOPCODE
        omega
      simpa using hns

theorem C13_wait_loop_retries_witness :
    (∀ s ∈ [W_STOPCODE 19, W_CONTINUED, W_STOPCODE 20],
        WIFEXITED s = false ∧ WIFSIGNALED s = false) ∧
      (ForkExec
        ⟨true, fun _ => true,
          [some (W_STOPCODE 19), some W_CONTINUED, some (W_STOPCODE 20),
            some (W_EXITCODE 1 0), some (W_EXITCODE 0 9)]⟩
        ["/usr/bin/javac"]).2 = Result.ret 1 :=
  ⟨by decide,
    (C13_wait_loop_retries
      ⟨true, fun _ => true,
        [some (W_STOPCODE 19), some W_CONTINUED, some (W_STOPCODE 20),
          some (W_EXITCODE 1 0), some (W_EXITCODE 0 9)]⟩
      ["/usr/bin/javac"] [W_STOPCODE 19, W_CONTINUED, W_STOPCODE 20] (W_EXITCODE 1 0)
      [some (W_EXITCODE 0 9)] rfl rfl (by decide) (by decide)).1⟩

/-- C14 fails for the front-end command: its `execve` is made by the `vfork`
child, so when it fails the abort of line 31 ends the child only.  The parent
then sees a child killed by `SIGABRT` (signal 6), `ForkExec` returns 6 and
`main` returns 6 as an ordinary status. -/
theorem C14_child_exec_failure_returns :
    main ⟨true, fun _ => false, [some (W_EXITCODE 0 6)]⟩
        ["java_compile", "App", "Main.java"] =
      ([Event.vfork,
        Event.execve Proc.child
          ["/usr/bin/javac", "-J-Xmx896M", "-J-Xms32M", "-J-XX:+UseSerialGC", "-d", ".",
            "Main.java"],
        Event.abort Proc.child
          (Fatal.execve
            ["/usr/bin/javac", "-J-Xmx896M", "-J-Xms32M", "-J-XX:+UseSerialGC", "-d", ".",
              "Main.java"]),
        Event.waitpid],
       Result.ret 6) := by
  decide

/-- C14 as amended: when the `execve` of the ahead-of-time command fails, the
launcher itself aborts through line 31 and `main` returns no status.  When the
`execve` of the front-end command fails, the abort of line 31 is the child's:
the run of `main` does not end in that abort, and a non-zero value that
`ForkExec` derives from the child's terminal wait status (6 for a child killed
by `SIGABRT`) is returned by `main`. -/
theorem C14_exec_failure (w : World) (argv : List String) (c : Commands)
    (h : synthesize argv = some c) :
    ((ForkExec w c.compiler_args).2 = Result.ret 0 →
        w.execveOk c.native_image_args = false →
        (main w argv).2 = Result.fatal (Fatal.execve c.native_image_args) ∧
          Event.abort Proc.parent (Fatal.execve c.native_image_args) ∈ (main w argv).1) ∧
      (w.vforkOk = true → w.execveOk c.compiler_args = false →
        Event.abort Proc.child (Fatal.execve c.compiler_args) ∈ (main w argv).1 ∧
          (main w argv).2 ≠ Result.fatal (Fatal.execve c.compiler_args) ∧
          (∀ s : Int, s ≠ 0 → (waitLoop w.waits).2 = Result.ret s →
            (main w argv).2 = Result.ret s) ∧
          (∀ (pre : List Nat) (rest : List (Option Nat)) (core : Bool),
            (∀ s ∈ pre, WIFEXITED s = false ∧ WIFSIGNALED s = false) →
            w.waits = pre.map some ++
              some (W_EXITCODE 0 6 + (if core then WCOREFLAG else 0)) :: rest →
            (main w argv).2 = Result.ret 6)) := by
  constructor
  · intro hs hx
    rw [main_of_synthesize w argv c h, runStages_of_ret w c 0 hs, if_neg (by simp)]
    simp [Exec, hx, PLOG_FATAL]
  · intro hv hx
    have hret : ∀ s : Int, s ≠ 0 → (waitLoop w.waits).2 = Result.ret s →
        (main w argv).2 = Result.ret s := by
      intro s hs hwl
      rw [← ForkExec_result w c.compiler_args hv] at hwl
      exact (main_of_nonzero w argv c s h hwl hs).1
    refine ⟨?_, main_not_fatal_frontend w argv c h, hret, ?_⟩
    · apply main_events_of_ForkExec w argv c h
      simp [ForkExec, hv, Exec, hx, PLOG_FATAL]
    · intro pre rest core hpre hw
      apply hret 6 (by decide)
      have h2 : WIFSIGNALED (W_EXITCODE 0 6 + (if core then WCOREFLAG else 0)) = true := by
        cases core <;> decide
      have ht : WTERMSIG (W_EXITCODE 0 6 + (if core then WCOREFLAG else 0)) = 6 := by
        cases core <;> decide
      have hT := (ForkExec_terminal w c.compiler_args pre _ rest hv hw hpre).2 h2
      rw [ForkExec_result w _ hv, ht] at hT
      exact hT

theorem C14_exec_failure_witness :
    synthesize ["java_compile", "App", "Main.java"] =
        some (buildCommands false ["java_compile", "App", "Main.java"]) ∧
      (main ⟨true, fun _ => false, [some (W_EXITCODE 0 6 + WCOREFLAG)]⟩
        ["java_compile", "App", "Main.java"]).2 = Result.ret 6 :=
  ⟨by decide,
    ((C14_exec_failure ⟨true, fun _ => false, [some (W_EXITCODE 0 6 + WCOREFLAG)]⟩
      ["java_compile", "App", "Main.java"]
      (buildCommands false ["java_compile", "App", "Main.java"]) (by decide)).2
        rfl rfl).2.2.2 [] [] true (by decide) rfl⟩

/-- C15: when `vfork` fails, the run of `ForkExec` is the one call of `vfork`
and the abort of line 38, and so is the run of `main`.  When a call of
`waitpid` fails, after any number of statuses that are not terminal, the abort
of line 49 follows that call at once: no further `waitpid`, no value returned
to `main`, and the parent never calls `execve`. -/
theorem C15_fork_wait_failure (w : World) (argv : List String) (c : Commands)
    (h : synthesize argv = some c) :
    (w.vforkOk = false →
        ForkExec w c.compiler_args =
          ([Event.vfork, Event.abort Proc.parent Fatal.fork], Result.fatal Fatal.fork) ∧
        main w argv =
          ([Event.vfork, Event.abort Proc.parent Fatal.fork], Result.fatal Fatal.fork)) ∧
      (∀ (pre : List Nat) (rest : List (Option Nat)),
        w.vforkOk = true → w.waits = pre.map some ++ none :: rest →
        (∀ s ∈ pre, WIFEXITED s = false ∧ WIFSIGNALED s = false) →
        (ForkExec w c.compiler_args).2 = Result.fatal Fatal.wait ∧
          (waitLoop w.waits).1 =
            List.replicate (pre.length + 1) Event.waitpid ++
              [Event.abort Proc.parent Fatal.wait] ∧
          (main w argv).2 = Result.fatal Fatal.wait ∧
          (∀ a, Event.execve Proc.parent a ∉ (main w argv).1)) := by
  constructor
  · intro hv
    have hf : ForkExec w c.compiler_args =
        ([Event.vfork, Event.abort Proc.parent Fatal.fork], Result.fatal Fatal.fork) := by
      simp [ForkExec, hv, PLOG_FATAL]
    refine ⟨hf, ?_⟩
    rw [main_of_synthesize w argv c h]
    simp only [runStages, hf]
  · intro pre rest hv hw hpre
    have hf : (ForkExec w c.compiler_args).2 = Result.fatal Fatal.wait := by
      rw [ForkExec_result w _ hv, hw, waitLoop_skip pre _ hpre]
      rfl
    refine ⟨hf, ?_, ?_, ?_⟩
    · rw [hw, waitLoop_skip_events pre _ hpre, List.replicate_succ', List.append_assoc]
      rfl
    · rw [main_of_synthesize w argv c h]
      simp only [runStages, hf]
    · intro a ha
      have h0 := (main_parent_execve w argv c a h ha).1
      rw [hf] at h0
      cases h0

theorem C15_fork_wait_failure_witness :
    synthesize ["java_compile", "App", "Main.java"] =
        some (buildCommands false ["java_compile", "App", "Main.java"]) ∧
      main ⟨false, fun _ => true, []⟩ ["java_compile", "App", "Main.java"] =
        ([Event.vfork, Event.abort Proc.parent Fatal.fork], Result.fatal Fatal.fork) ∧
      (main ⟨true, fun _ => true, [some (W_STOPCODE 19), none, some 0]⟩
        ["java_compile", "App", "Main.java"]).2 = Result.fatal Fatal.wait :=
  ⟨by decide,
    ((C15_fork_wait_failure ⟨false, fun _ => true, []⟩ ["java_compile", "App", "Main.java"]
      (buildCommands false ["java_compile", "App", "Main.java"]) (by decide)).1 rfl).2,
    ((C15_fork_wait_failure ⟨true, fun _ => true, [some (W_STOPCODE 19), none, some 0]⟩
      ["java_compile", "App", "Main.java"]
      (buildCommands false ["java_compile", "App", "Main.java"]) (by decide)).2
        [W_STOPCODE 19] [some 0] rfl rfl (by decide)).2.2.1⟩

/-- C16: `TrimExtension(n ++ e, e) = n` for every name `n` and extension `e`.
So a Java source named `n ++ ".java"` contributes the symbol `n` to the
ahead-of-time command and a Kotlin source named `n ++ ".kt"` contributes
`n ++ "Kt"`, at its place among the symbols of the other sources, for every
name `n` without a NUL character (as all of `argv` is), the empty name and
names that end in the extension included. -/
theorem C16_trim_undoes_append (n e : String) :
    TrimExtension (n ++ e) e = n ∧
      (∀ (argv0 target : String) (before after : List String),
        IsCString n → isLanguageFlag target = false →
        (synthesize (argv0 :: target :: (before ++ (n ++ ".java") :: after))).map
            Commands.native_image_args =
          some (["/usr/lib/jvm/graalvm/bin/native-image", "-dsa", "-H:NumberOfThreads=1",
              "-J-Xms512M", "-J-Xmx896M"]
            ++ before.map (symbolOf false) ++ [n] ++ after.map (symbolOf false)
            ++ [target])) ∧
      (∀ (argv0 target : String) (before after : List String),
        IsCString n →
        (synthesize (argv0 :: "--language=kotlin" :: target ::
            (before ++ (n ++ ".kt") :: after))).map Commands.native_image_args =
          some (["/usr/lib/jvm/graalvm/bin/native-image", "-dsa", "-H:NumberOfThreads=1",
              "-J-Xms512M", "-J-Xmx896M", "-cp",
              "/usr/lib/jvm/kotlinc/lib/kotlin-stdlib.jar:."]
            ++ before.map (symbolOf true) ++ [n ++ "Kt"] ++ after.map (symbolOf true)
            ++ [target])) ∧
      TrimExtension ("" ++ ".java") ".java" = "" ∧
      TrimExtension ("Foo.java" ++ ".java") ".java" = "Foo.java" ∧
      (synthesize ["java_compile", "App", ".java", "Foo.java.java"]).map
          Commands.native_image_args =
        some ["/usr/lib/jvm/graalvm/bin/native-image", "-dsa", "-H:NumberOfThreads=1",
          "-J-Xms512M", "-J-Xmx896M", "", "Foo.java", "App"] := by
  refine ⟨trim_append n e, ?_, ?_, by decide, by decide, by decide⟩
  · intro argv0 target before after hn hf
    rw [synthesize_java_split _ _ _ _ _ hf]
    simp only [symbolOf, Bool.false_eq_true, if_false, trim_append, c_str_of_isCString n hn]
  · intro argv0 target before after hn
    rw [synthesize_kotlin_split]
    simp only [symbolOf, if_true, trim_append, c_str_of_isCString n hn, StringPrintf_sKt]

end JavaCompile
